import Mathlib

/-!
Verification of the "atendimentos" CRUD application.

This file contains a shallow embedding, in Lean 4, of the JavaScript code of
the repository: the record validation and sanitization layer
(`src/backend/services/atendimentoService.js`), the HTTP controller
(`src/backend/controllers/atendimentoController.js`), the raw-PostgreSQL
server (`server-postgres.js`), the in-memory mock server, the frontend API
cache and the frontend list filters.  JavaScript strings are modelled as Lean
`String`s, JavaScript numbers used as ids and timestamps as `Int`, absent
(`undefined`) fields as `Option`, and the database / in-memory stores as
explicit state records threaded through the operations.  `Date` parsing is
abstracted as an explicit `parseDate : String → Option Int` argument
(`none` models an invalid date, `some t` a date with time value `t`), and
"now" as an explicit `Int` argument.
-/

namespace Projeto

/-! ## JavaScript string and number primitives -/

/-- The whitespace characters stripped by `String.prototype.trim`
(restricted to the characters that can occur in this application). -/
def jsIsSpace (c : Char) : Bool :=
  c = ' ' || c = '\t' || c = '\n' || c = '\r'

/-- Drop trailing characters satisfying `jsIsSpace`. -/
def trimRightList : List Char → List Char
  | [] => []
  | c :: t =>
    let t' := trimRightList t
    if t'.isEmpty && jsIsSpace c then [] else c :: t'

/-- Function `trim` on a list of characters: drop whitespace at both ends. -/
def trimList (l : List Char) : List Char :=
  trimRightList (l.dropWhile jsIsSpace)

/-- Model of `String.prototype.trim`. -/
def jsTrim (s : String) : String :=
  String.mk (trimList s.toList)

/-- JavaScript falsiness of an optional string field:
`undefined` and the empty string are falsy. -/
def strFalsy : Option String → Bool
  | none => true
  | some s => s = ""

/-- Value of a list of decimal digit characters (most significant first). -/
def digitsToNat (ds : List Char) : Nat :=
  ds.foldl (fun acc c => 10 * acc + (c.toNat - '0'.toNat)) 0

/-- The leading run of decimal digits of a character list, as a number;
`none` when the list does not start with a digit. -/
def leadDigits (l : List Char) : Option Nat :=
  let ds := l.takeWhile Char.isDigit
  if ds.isEmpty then none else some (digitsToNat ds)

/-- Model of JavaScript `parseInt(s)` (radix 10): skip leading whitespace,
accept an optional sign, read the leading digits; `none` models `NaN`. -/
def parseIntJS (s : String) : Option Int :=
  match s.toList.dropWhile jsIsSpace with
  | [] => none
  | c :: rest =>
    if c = '-' then (leadDigits rest).map (fun n => -(n : Int))
    else if c = '+' then (leadDigits rest).map (fun n => (n : Int))
    else (leadDigits (c :: rest)).map (fun n => (n : Int))

/-- Test that `pat` occurs at the front of `hay`. -/
def leadMatch : List Char → List Char → Bool
  | [], _ => true
  | _ :: _, [] => false
  | p :: ps, h :: hs => p = h && leadMatch ps hs

/-- Test that `pat` occurs somewhere in `hay` (contiguously). -/
def hasSubList (pat : List Char) : List Char → Bool
  | [] => pat.isEmpty
  | c :: t => leadMatch pat (c :: t) || hasSubList pat t

/-- Model of JavaScript `hay.includes(pat)` on strings. -/
def jsIncludes (hay pat : String) : Bool :=
  hasSubList pat.toList hay.toList

/-- Model of `Array.prototype.find`: first element satisfying `p`. -/
def jsFind (p : α → Bool) : List α → Option α
  | [] => none
  | a :: t => if p a then some a else jsFind p t

/-- Model of `Array.prototype.findIndex` (`none` models `-1`). -/
def jsFindIndex (p : α → Bool) : List α → Option Nat
  | [] => none
  | a :: t => if p a then some 0 else (jsFindIndex p t).map (· + 1)

/-- Model of `array.splice(n, 1)`: remove the element at index `n`. -/
def removeAt : List α → Nat → List α
  | [], _ => []
  | _ :: t, 0 => t
  | a :: t, n + 1 => a :: removeAt t n

/-- Model of `array[n] = x`: replace the element at index `n`. -/
def setAt : List α → Nat → α → List α
  | [], _, _ => []
  | _ :: t, 0, x => x :: t
  | a :: t, n + 1, x => a :: setAt t n x

/-! ## The atendimento record and the backend validation layer
(`src/backend/services/atendimentoService.js`) -/

/-- A request body for an atendimento: each field may be absent
(`undefined` in JavaScript).  `data` is kept as the raw string sent by the
client, exactly as the JavaScript code does. -/
structure Atendimento where
  nome : Option String
  profissional : Option String
  data : Option String
  tipo : Option String
  observacoes : Option String
deriving Repr, DecidableEq

/-- The valid service types (`tiposValidos` in the source). -/
def tiposValidos : List String :=
  ["Psicológico", "Pedagógico", "Assistência Social"]

/-- Result of `validateAtendimento`: `{isValid, errors}`. -/
structure ValidationResult where
  isValid : Bool
  errors : List String
deriving Repr, DecidableEq

/-- The `nome` check of `validateAtendimento`:
`!nome || nome.trim().length < 2` (an absent or empty `nome` trims to
length 0, so falsiness and the length test coincide). -/
def nomeErrors (a : Atendimento) : List String :=
  match a.nome with
  | none => ["Nome deve ter pelo menos 2 caracteres"]
  | some s =>
    if (jsTrim s).length < 2 then ["Nome deve ter pelo menos 2 caracteres"] else []

/-- The `profissional` check of `validateAtendimento`. -/
def profErrors (a : Atendimento) : List String :=
  match a.profissional with
  | none => ["Profissional deve ter pelo menos 2 caracteres"]
  | some s =>
    if (jsTrim s).length < 2 then ["Profissional deve ter pelo menos 2 caracteres"] else []

/-- The `data` check of `validateAtendimento`: `!data` (absent or empty
string) gives the required-field error, then `new Date(data) > new Date()`
gives the future-date error; an unparseable date (`parseDate` returns
`none`, i.e. a `NaN` time value) compares false and is accepted, exactly as
in JavaScript. -/
def dataErrors (parseDate : String → Option Int) (now : Int)
    (a : Atendimento) : List String :=
  if strFalsy a.data then ["Data é obrigatória"]
  else
    match parseDate (a.data.getD "") with
    | some t => if now < t then ["Data não pode ser futura"] else []
    | none => []

/-- The `tipo` check of `validateAtendimento`:
`!tipo || !tiposValidos.includes(tipo)` (the empty string is not a valid
type, so falsiness and the membership test coincide). -/
def tipoErrors (a : Atendimento) : List String :=
  match a.tipo with
  | none => ["Tipo deve ser: Psicológico, Pedagógico ou Assistência Social"]
  | some s =>
    if tiposValidos.contains s then []
    else ["Tipo deve ser: Psicológico, Pedagógico ou Assistência Social"]

/-- Function `validateAtendimento` from `atendimentoService.js`: the four checks run
in order, each pushing its message onto `errors`; `isValid` is
`errors.length === 0`. -/
def validateAtendimento (parseDate : String → Option Int) (now : Int)
    (a : Atendimento) : ValidationResult :=
  let errors :=
    nomeErrors a ++ profErrors a ++ dataErrors parseDate now a ++ tipoErrors a
  { isValid := errors.isEmpty, errors := errors }

/-- Function `sanitizeAtendimento` from `atendimentoService.js`:
`nome`, `profissional` and `tipo` are trimmed when present (`?.trim()`),
`data` is passed through, and `observacoes` becomes
`observacoes?.trim() || ''` (so it is always present afterwards). -/
def sanitizeAtendimento (a : Atendimento) : Atendimento :=
  { nome := a.nome.map jsTrim
    profissional := a.profissional.map jsTrim
    data := a.data
    tipo := a.tipo.map jsTrim
    observacoes := some (match a.observacoes with
      | none => ""
      | some s => jsTrim s) }

/-! ## Database model and `AtendimentoService`
(`src/backend/services/atendimentoService.js`)

The PostgreSQL table `atendimento` is modelled as a list of rows plus the
`SERIAL` counter.  Display-only columns (`created_at`, `updated_at`) and the
locale date formatting of `mapAtendimentoToResponse` are omitted from the
model; no claim inspects them.  Queries are modelled as always reaching the
database successfully: a database failure surfaces as a 500 response in the
code and is outside the validation behaviour studied here. -/

structure DBRow where
  id : Int
  nome : String
  profissional : String
  data : String
  tipo : String
  observacoes : String
deriving Repr, DecidableEq

structure DBState where
  rows : List DBRow
  serial : Int
deriving Repr, DecidableEq

/-- The API-facing shape produced by `mapAtendimentoToResponse`
(formatted date and timestamps omitted, `dataISO` kept). -/
structure ApiAtendimento where
  id : Int
  nome : String
  profissional : String
  dataISO : String
  tipo : String
  observacoes : String
deriving Repr, DecidableEq

/-- Function `mapAtendimentoToResponse` from `atendimentoService.js`. -/
def mapAtendimentoToResponse (r : DBRow) : ApiAtendimento :=
  { id := r.id, nome := r.nome, profissional := r.profissional
    dataISO := r.data, tipo := r.tipo, observacoes := r.observacoes }

namespace AtendimentoService

/-- Method `AtendimentoService.findById`: `SELECT * FROM atendimento WHERE id = $1`,
`null` when no row matches. -/
def findById (st : DBState) (i : Int) : Option DBRow :=
  Projeto.jsFind (fun r => r.id = i) st.rows

/-- Method `AtendimentoService.create`: sanitize, validate, throw
`Dados inválidos: …` when invalid (before any SQL), otherwise insert the
sanitized record with the next serial id and return the created row. -/
def create (parseDate : String → Option Int) (now : Int)
    (st : DBState) (b : Atendimento) : Except String DBRow × DBState :=
  let s := sanitizeAtendimento b
  let v := validateAtendimento parseDate now s
  if v.isValid then
    let row : DBRow :=
      { id := st.serial, nome := s.nome.getD "", profissional := s.profissional.getD ""
        data := s.data.getD "", tipo := s.tipo.getD "", observacoes := s.observacoes.getD "" }
    (.ok row, { rows := st.rows ++ [row], serial := st.serial + 1 })
  else
    (.error ("Dados inválidos: " ++ String.intercalate ", " v.errors), st)

/-- Method `AtendimentoService.update`: sanitize, validate, throw
`Dados inválidos: …` when invalid (before any SQL); otherwise run the
`UPDATE … WHERE id = $6 RETURNING *` query, returning `none` when no row
has that id. -/
def update (parseDate : String → Option Int) (now : Int)
    (st : DBState) (i : Int) (b : Atendimento) : Except String (Option DBRow) × DBState :=
  let s := sanitizeAtendimento b
  let v := validateAtendimento parseDate now s
  if v.isValid then
    let newFields : DBRow → DBRow := fun r =>
      { r with nome := s.nome.getD "", profissional := s.profissional.getD ""
               data := s.data.getD "", tipo := s.tipo.getD ""
               observacoes := s.observacoes.getD "" }
    let newRows := st.rows.map (fun r => if r.id = i then newFields r else r)
    match Projeto.jsFind (fun r => r.id = i) st.rows with
    | none => (.ok none, { st with rows := newRows })
    | some r => (.ok (some (newFields r)), { st with rows := newRows })
  else
    (.error ("Dados inválidos: " ++ String.intercalate ", " v.errors), st)

/-- Method `AtendimentoService.delete`: `DELETE FROM atendimento WHERE id = $1
RETURNING id`; the boolean says whether anything was deleted. -/
def delete (st : DBState) (i : Int) : Bool × DBState :=
  let deleted := st.rows.any (fun r => r.id = i)
  (deleted, { st with rows := st.rows.filter (fun r => !(r.id = i : Bool)) })

end AtendimentoService

/-! ## The HTTP controller
(`src/backend/controllers/atendimentoController.js`)

Each handler is modelled as a function from the database state and the
request to a response (status, success flag, optional payload, message) and
the resulting state. -/

structure CtrlResponse where
  status : Nat
  success : Bool
  payload : Option ApiAtendimento
  message : String
deriving Repr, DecidableEq

namespace AtendimentoController

/-- Handler `AtendimentoController.show` (`GET /api/atendimento/:id`): reject the id
with 400 when `parseInt` gives `NaN`, 404 when the record does not exist,
200 with the record otherwise.  (Named `showById` here because `show` is a
Lean keyword.) -/
def showById (st : DBState) (idStr : String) : CtrlResponse :=
  match parseIntJS idStr with
  | none =>
    { status := 400, success := false, payload := none, message := "ID inválido" }
  | some i =>
    match AtendimentoService.findById st i with
    | none =>
      { status := 404, success := false, payload := none
        message := "Atendimento não encontrado" }
    | some r =>
      { status := 200, success := true, payload := some (mapAtendimentoToResponse r)
        message := "Atendimento encontrado com sucesso" }

/-- Handler `AtendimentoController.store` (`POST /api/atendimento`): create via the
service; a thrown message containing `Dados inválidos` becomes a 400,
anything else a 500; success is a 201 with the created record. -/
def store (parseDate : String → Option Int) (now : Int)
    (st : DBState) (b : Atendimento) : CtrlResponse × DBState :=
  match AtendimentoService.create parseDate now st b with
  | (.ok row, st') =>
    ({ status := 201, success := true, payload := some (mapAtendimentoToResponse row)
       message := "Atendimento criado com sucesso" }, st')
  | (.error e, st') =>
    ({ status := if jsIncludes e "Dados inválidos" then 400 else 500
       success := false, payload := none, message := e }, st')

/-- Handler `AtendimentoController.update` (`PUT /api/atendimento/:id`). -/
def update (parseDate : String → Option Int) (now : Int)
    (st : DBState) (idStr : String) (b : Atendimento) : CtrlResponse × DBState :=
  match parseIntJS idStr with
  | none =>
    ({ status := 400, success := false, payload := none, message := "ID inválido" }, st)
  | some i =>
    match AtendimentoService.update parseDate now st i b with
    | (.ok none, st') =>
      ({ status := 404, success := false, payload := none
         message := "Atendimento não encontrado" }, st')
    | (.ok (some r), st') =>
      ({ status := 200, success := true, payload := some (mapAtendimentoToResponse r)
         message := "Atendimento atualizado com sucesso" }, st')
    | (.error e, st') =>
      ({ status := if jsIncludes e "Dados inválidos" then 400 else 500
         success := false, payload := none, message := e }, st')

/-- Handler `AtendimentoController.destroy` (`DELETE /api/atendimento/:id`). -/
def destroy (st : DBState) (idStr : String) : CtrlResponse × DBState :=
  match parseIntJS idStr with
  | none =>
    ({ status := 400, success := false, payload := none, message := "ID inválido" }, st)
  | some i =>
    let (deleted, st') := AtendimentoService.delete st i
    if deleted then
      ({ status := 200, success := true, payload := none
         message := "Atendimento deletado com sucesso" }, st')
    else
      ({ status := 404, success := false, payload := none
         message := "Atendimento não encontrado" }, st')

end AtendimentoController

/-! ## The raw-PostgreSQL server (`server-postgres.js`)

Its `POST /api/atendimento` handler performs no field validation at all: it
inserts the body fields directly (with `observacoes || ''`) and answers 201.
Database-level constraint violations would surface as a 500, never as a
validation 400; the model covers the handler's own behaviour with a
successful insert. -/

def rawServerPost (st : DBState) (b : Atendimento) :
    (Nat × Option DBRow) × DBState :=
  let row : DBRow :=
    { id := st.serial, nome := b.nome.getD "", profissional := b.profissional.getD ""
      data := b.data.getD "", tipo := b.tipo.getD ""
      observacoes := match b.observacoes with
        | none => ""
        | some s => if s = "" then "" else s }
  ((201, some row), { rows := st.rows ++ [row], serial := st.serial + 1 })

/-! ## The in-memory mock server (standalone Express variant)

State: the `atendimentos` array and the `nextId` counter.  Handlers return
the HTTP status, the payload where relevant, and the new state.  The
display-only re-formatting of `data` in responses is omitted. -/

structure MockAtendimento where
  id : Int
  nome : String
  profissional : String
  data : String
  dataISO : String
  tipo : String
  observacoes : String
deriving Repr, DecidableEq

structure MockState where
  atendimentos : List MockAtendimento
  nextId : Int
deriving Repr, DecidableEq

/-- The three seeded records and `nextId = 4` of the mock server. -/
def mockInitialState : MockState :=
  { atendimentos :=
      [ { id := 1, nome := "Maria Silva", profissional := "Dr. João Santos"
          data := "2024-01-15", dataISO := "2024-01-15", tipo := "Psicológico"
          observacoes := "Primeira consulta - ansiedade" }
      , { id := 2, nome := "Pedro Oliveira", profissional := "Ana Costa"
          data := "2024-01-16", dataISO := "2024-01-16", tipo := "Assistência Social"
          observacoes := "Orientação sobre benefícios sociais" }
      , { id := 3, nome := "Carla Souza", profissional := "Prof. Rita Lima"
          data := "2024-01-17", dataISO := "2024-01-17", tipo := "Pedagógico"
          observacoes := "Dificuldades de aprendizagem" } ]
    nextId := 4 }

/-- The mock server's inline body validation (shared by its POST and PUT
handlers): the first failing check's message, or `none` when every check
passes.  Unlike the service layer there is no future-date check, and the
`tipo` membership test uses the raw (untrimmed) value. -/
def mockValidateBody (b : Atendimento) : Option String :=
  match b.nome with
  | none => some "Nome deve ter pelo menos 2 caracteres"
  | some nome =>
    if (jsTrim nome).length < 2 then some "Nome deve ter pelo menos 2 caracteres"
    else
      match b.profissional with
      | none => some "Profissional deve ter pelo menos 2 caracteres"
      | some prof =>
        if (jsTrim prof).length < 2 then some "Profissional deve ter pelo menos 2 caracteres"
        else if strFalsy b.data then some "Data é obrigatória"
        else
          match b.tipo with
          | none => some "Tipo deve ser: Psicológico, Pedagógico ou Assistência Social"
          | some tipo =>
            if tiposValidos.contains tipo then none
            else some "Tipo deve ser: Psicológico, Pedagógico ou Assistência Social"

/-- The record the mock POST/PUT handlers build from a validated body. -/
def mockBuildRecord (i : Int) (b : Atendimento) : MockAtendimento :=
  { id := i
    nome := jsTrim (b.nome.getD "")
    profissional := jsTrim (b.profissional.getD "")
    data := b.data.getD ""
    dataISO := b.data.getD ""
    tipo := jsTrim (b.tipo.getD "")
    observacoes := match b.observacoes with
      | none => ""
      | some s => if s = "" then "" else jsTrim s }

/-- Mock `GET /api/atendimento/:id`: `parseInt` then `find`; a `NaN` id
matches no record and therefore falls into the 404 branch. -/
def mockGetById (st : MockState) (idStr : String) : Nat × Option MockAtendimento :=
  let found :=
    match parseIntJS idStr with
    | none => none
    | some i => jsFind (fun a => a.id = i) st.atendimentos
  match found with
  | none => (404, none)
  | some a => (200, some a)

/-- Mock `POST /api/atendimento`: validate (400 on the first failure,
without touching the array), otherwise push the new record with id
`nextId++`. -/
def mockPost (st : MockState) (b : Atendimento) :
    (Nat × Option MockAtendimento) × MockState :=
  match mockValidateBody b with
  | some _ => ((400, none), st)
  | none =>
    let novo := mockBuildRecord st.nextId b
    ((201, some novo),
      { atendimentos := st.atendimentos ++ [novo], nextId := st.nextId + 1 })

/-- Mock `PUT /api/atendimento/:id`: `findIndex` first (404 when absent,
also for a `NaN` id), then the same validation as POST (400), then replace
the entry in place keeping the parsed id. -/
def mockPut (st : MockState) (idStr : String) (b : Atendimento) :
    (Nat × Option MockAtendimento) × MockState :=
  match parseIntJS idStr with
  | none => ((404, none), st)
  | some i =>
    match jsFindIndex (fun a => a.id = i) st.atendimentos with
    | none => ((404, none), st)
    | some idx =>
      match mockValidateBody b with
      | some _ => ((400, none), st)
      | none =>
        let updated := mockBuildRecord i b
        ((200, some updated),
          { st with atendimentos := setAt st.atendimentos idx updated })

/-- Mock `DELETE /api/atendimento/:id`: `findIndex` (404 when absent, also
for a `NaN` id), then `splice(index, 1)`. -/
def mockDelete (st : MockState) (idStr : String) : Nat × MockState :=
  match parseIntJS idStr with
  | none => (404, st)
  | some i =>
    match jsFindIndex (fun a => a.id = i) st.atendimentos with
    | none => (404, st)
    | some idx =>
      (200, { st with atendimentos := removeAt st.atendimentos idx })

/-! ## The frontend `APICache` (`src/frontend/js/api.js`)

A JavaScript `Map` from string keys to `{data, expiry}` items, modelled as
an association list whose keys stay unique because insertion goes through
`set`.  Time is an explicit `Int` argument standing for `Date.now()`. -/

structure CacheItem (α : Type) where
  data : α
  expiry : Int
deriving Repr, DecidableEq

/-- The cache storage: a `Map` as an association list. -/
abbrev CacheMap (α : Type) : Type := List (String × CacheItem α)

namespace APICache

/-- Constant `ttl`: five minutes in milliseconds. -/
def ttl : Int := 5 * 60 * 1000

/-- Model of `Map.prototype.get`. -/
def lookup : CacheMap α → String → Option (CacheItem α)
  | [], _ => none
  | (k', v) :: t, k => if k' = k then some v else lookup t k

/-- Model of `Map.prototype.set`: replace in place, or append a new entry. -/
def mapSet : CacheMap α → String → CacheItem α → CacheMap α
  | [], k, v => [(k, v)]
  | (k', v') :: t, k, v =>
    if k' = k then (k, v) :: t else (k', v') :: mapSet t k v

/-- Model of `Map.prototype.delete`. -/
def eraseKey (m : CacheMap α) (k : String) : CacheMap α :=
  m.filter (fun e => !(e.fst = k : Bool))

/-- Method `APICache.get`: `null` when the key is absent; when the item has
expired (`now > item.expiry`) delete it and return `null`; otherwise return
the stored data.  The returned map is the cache after the call. -/
def get (m : CacheMap α) (k : String) (now : Int) : Option α × CacheMap α :=
  match lookup m k with
  | none => (none, m)
  | some it => if it.expiry < now then (none, eraseKey m k) else (some it.data, m)

/-- Method `APICache.set`: store `data` with expiry `now + ttl`. -/
def set (m : CacheMap α) (k : String) (d : α) (now : Int) : CacheMap α :=
  mapSet m k { data := d, expiry := now + ttl }

/-- Method `APICache.invalidate`: delete every entry whose key contains the
pattern as a substring. -/
def invalidate (m : CacheMap α) (pattern : String) : CacheMap α :=
  m.filter (fun e => !jsIncludes e.fst pattern)

end APICache

/-! ## Frontend search utilities and list filters
(`src/frontend/js/` string utilities and `AtendimentoFilters`)

`toLowerCase` and the NFD accent stripping of `removeAccents` are modelled
character by character over the alphabet of this application (ASCII plus
the accented letters of Portuguese); every other character is left
unchanged. -/

/-- Model of `String.prototype.toLowerCase` on the application alphabet. -/
def jsLowerChar (c : Char) : Char :=
  match c with
  | 'Á' => 'á' | 'À' => 'à' | 'Â' => 'â' | 'Ã' => 'ã' | 'Ä' => 'ä'
  | 'É' => 'é' | 'Ê' => 'ê' | 'È' => 'è'
  | 'Í' => 'í' | 'Ì' => 'ì'
  | 'Ó' => 'ó' | 'Ô' => 'ô' | 'Õ' => 'õ' | 'Ò' => 'ò'
  | 'Ú' => 'ú' | 'Ù' => 'ù' | 'Ü' => 'ü'
  | 'Ç' => 'ç'
  | c => c.toLower

/-- Accent stripping of a single character (the net effect of NFD
normalization followed by removal of the combining marks U+0300 through
U+036F, on the application alphabet). -/
def deaccentChar (c : Char) : Char :=
  match c with
  | 'á' | 'à' | 'â' | 'ã' | 'ä' => 'a'
  | 'é' | 'ê' | 'è' | 'ë' => 'e'
  | 'í' | 'ì' | 'î' | 'ï' => 'i'
  | 'ó' | 'ô' | 'õ' | 'ò' | 'ö' => 'o'
  | 'ú' | 'ù' | 'û' | 'ü' => 'u'
  | 'ç' => 'c'
  | 'Á' | 'À' | 'Â' | 'Ã' | 'Ä' => 'A'
  | 'É' | 'Ê' | 'È' | 'Ë' => 'E'
  | 'Í' | 'Ì' | 'Î' | 'Ï' => 'I'
  | 'Ó' | 'Ô' | 'Õ' | 'Ò' | 'Ö' => 'O'
  | 'Ú' | 'Ù' | 'Û' | 'Ü' => 'U'
  | 'Ç' => 'C'
  | c => c

/-- Function `StringUtils.removeAccents`. -/
def removeAccents (s : String) : String :=
  String.mk (s.toList.map deaccentChar)

/-- Model of `str.toLowerCase()`. -/
def jsToLower (s : String) : String :=
  String.mk (s.toList.map jsLowerChar)

/-- Function `StringUtils.sanitizeForSearch`:
`removeAccents(str.toLowerCase().trim())`. -/
def sanitizeForSearch (s : String) : String :=
  removeAccents (jsTrim (jsToLower s))

/-- Function `StringUtils.containsSearchTerm`: false when either string is falsy,
otherwise a substring test on the two sanitized strings. -/
def containsSearchTerm (text searchTerm : String) : Bool :=
  if text = "" || searchTerm = "" then false
  else jsIncludes (sanitizeForSearch text) (sanitizeForSearch searchTerm)

/-- A record as held by the frontend list (the fields the filters read;
`observacoes` may be absent). -/
structure FrontAtendimento where
  nome : String
  profissional : String
  tipo : String
  observacoes : Option String
deriving Repr, DecidableEq

/-- The `{search, tipo}` filter pair of the frontend. -/
structure Filters where
  search : String
  tipo : String
deriving Repr, DecidableEq

namespace AtendimentoFilters

/-- Function `AtendimentoFilters.filterBySearch`. -/
def filterBySearch (l : List FrontAtendimento) (searchTerm : String) :
    List FrontAtendimento :=
  if searchTerm = "" then l
  else l.filter (fun a =>
    containsSearchTerm a.nome searchTerm ||
    containsSearchTerm a.profissional searchTerm ||
    containsSearchTerm (a.observacoes.getD "") searchTerm)

/-- Function `AtendimentoFilters.filterByTipo`. -/
def filterByTipo (l : List FrontAtendimento) (tipo : String) :
    List FrontAtendimento :=
  if tipo = "" then l
  else l.filter (fun a => a.tipo = tipo)

/-- Function `AtendimentoFilters.applyFilters`: copy the list, then apply the search
filter when `filters.search` is truthy, then the type filter when
`filters.tipo` is truthy. -/
def applyFilters (l : List FrontAtendimento) (f : Filters) :
    List FrontAtendimento :=
  let f1 := if f.search = "" then l else filterBySearch l f.search
  if f.tipo = "" then f1 else filterByTipo f1 f.tipo

end AtendimentoFilters

/-! ## Spec-level predicates

These predicates transcribe the specification's description of a valid
record ("nome (string, ≥2 chars), profissional (string, ≥2 chars), data
(date, not in the future), tipo (enum…), observacoes (optional string,
≤500 chars)") so they can be compared with the code's validation. -/

/-- Spec: the trimmed `nome` has at least 2 characters. -/
def NomeOk (b : Atendimento) : Prop :=
  ∃ s, b.nome = some s ∧ 2 ≤ (jsTrim s).length

/-- Spec: the trimmed `profissional` has at least 2 characters. -/
def ProfissionalOk (b : Atendimento) : Prop :=
  ∃ s, b.profissional = some s ∧ 2 ≤ (jsTrim s).length

/-- Spec: `data` is present (a non-empty value was sent). -/
def DataPresente (b : Atendimento) : Prop :=
  ∃ s, b.data = some s ∧ s ≠ ""

/-- Spec: the `data` value is not in the future (whenever it parses to a
time value, that value is at most `now`). -/
def DataNaoFutura (parseDate : String → Option Int) (now : Int)
    (b : Atendimento) : Prop :=
  ∀ s t, b.data = some s → parseDate s = some t → t ≤ now

/-- Spec: `tipo` is one of the three enumerated values (the record's tipo
as validated, i.e. after trimming). -/
def TipoOkTrim (b : Atendimento) : Prop :=
  ∃ s, b.tipo = some s ∧ jsTrim s ∈ tiposValidos

/-- The raw (untrimmed) variant of the tipo membership test, as performed
by the mock server. -/
def TipoOkRaw (b : Atendimento) : Prop :=
  ∃ s, b.tipo = some s ∧ s ∈ tiposValidos

/-- Spec: `observacoes`, when present, has at most 500 characters. -/
def ObservacoesOk (b : Atendimento) : Prop :=
  ∀ s, b.observacoes = some s → s.length ≤ 500

/-- The full record-validity predicate stated by the specification
(all five field conditions). -/
def SpecValidRecord (parseDate : String → Option Int) (now : Int)
    (b : Atendimento) : Prop :=
  NomeOk b ∧ ProfissionalOk b ∧ DataPresente b ∧
    DataNaoFutura parseDate now b ∧ TipoOkTrim b ∧ ObservacoesOk b

/-- Acceptance of a create body by the pooled-PostgreSQL service layer:
`sanitizeAtendimento` then `validateAtendimento` reports `isValid`. -/
def pooledAccepts (parseDate : String → Option Int) (now : Int)
    (b : Atendimento) : Bool :=
  (validateAtendimento parseDate now (sanitizeAtendimento b)).isValid

/-- Acceptance of a create body by the mock server's inline validation. -/
def mockAccepts (b : Atendimento) : Bool :=
  (mockValidateBody b).isNone

/-! ## Helper lemmas: trimming -/

theorem dropWhile_idem (p : α → Bool) :
    ∀ l : List α, (l.dropWhile p).dropWhile p = l.dropWhile p
  | [] => rfl
  | a :: t => by
    by_cases h : p a
    · simp [List.dropWhile_cons, h, dropWhile_idem p t]
    · simp [List.dropWhile_cons, h]

theorem trimRightList_of_cons (c : Char) (t : List Char) (h : ¬jsIsSpace c) :
    trimRightList (c :: t) = c :: trimRightList t := by
  simp [trimRightList, h]

theorem trimRightList_idem :
    ∀ l : List Char, trimRightList (trimRightList l) = trimRightList l
  | [] => rfl
  | c :: t => by
    show trimRightList
      (if (trimRightList t).isEmpty && jsIsSpace c then []
       else c :: trimRightList t) = _
    by_cases he : (trimRightList t).isEmpty && jsIsSpace c
    · simp [he, trimRightList]
    · simp only [he, if_false]
      show trimRightList (c :: trimRightList t) =
        if (trimRightList t).isEmpty && jsIsSpace c then [] else c :: trimRightList t
      simp only [trimRightList, trimRightList_idem t, he, if_false]

theorem dropWhile_trimRightList (l : List Char)
    (h : l.dropWhile jsIsSpace = l) :
    (trimRightList l).dropWhile jsIsSpace = trimRightList l := by
  cases l with
  | nil => rfl
  | cons c t =>
    have hc : ¬jsIsSpace c := by
      intro hc
      simp [List.dropWhile_cons, hc] at h
      have hle := (List.dropWhile_sublist (l := t) jsIsSpace).length_le
      rw [h] at hle
      simp at hle
    rw [trimRightList_of_cons c t hc]
    simp [List.dropWhile_cons, hc]

theorem trimList_idem (l : List Char) : trimList (trimList l) = trimList l := by
  unfold trimList
  rw [dropWhile_trimRightList _ (dropWhile_idem jsIsSpace l), trimRightList_idem]

theorem jsTrim_idem (s : String) : jsTrim (jsTrim s) = jsTrim s := by
  simp [jsTrim, trimList_idem]

/-! ## Helper lemmas: the validation checks -/

theorem nomeErrors_eq_nil_iff (a : Atendimento) :
    nomeErrors a = [] ↔ ∃ s, a.nome = some s ∧ 2 ≤ (jsTrim s).length := by
  cases h : a.nome with
  | none => simp [nomeErrors, h]
  | some s =>
    simp only [nomeErrors, h]
    by_cases hl : (jsTrim s).length < 2
    · simp [hl]
    · simp [hl]
      omega

theorem profErrors_eq_nil_iff (a : Atendimento) :
    profErrors a = [] ↔ ∃ s, a.profissional = some s ∧ 2 ≤ (jsTrim s).length := by
  cases h : a.profissional with
  | none => simp [profErrors, h]
  | some s =>
    simp only [profErrors, h]
    by_cases hl : (jsTrim s).length < 2
    · simp [hl]
    · simp [hl]
      omega

theorem dataErrors_eq_nil_iff (parseDate : String → Option Int) (now : Int)
    (a : Atendimento) :
    dataErrors parseDate now a = [] ↔
      DataPresente a ∧ DataNaoFutura parseDate now a := by
  cases h : a.data with
  | none => simp [dataErrors, strFalsy, h, DataPresente, DataNaoFutura]
  | some s =>
    by_cases hs : s = ""
    · subst hs
      simp [dataErrors, strFalsy, h, DataPresente, DataNaoFutura]
    · simp only [dataErrors, h, Option.getD_some]
      rw [if_neg (by simp [strFalsy, hs])]
      constructor
      · intro hd
        refine ⟨⟨s, h, hs⟩, ?_⟩
        intro u t hu ht
        rw [h] at hu
        cases hu
        rw [ht] at hd
        by_cases hf : now < t
        · simp [hf] at hd
        · omega
      · rintro ⟨-, hfut⟩
        cases hp : parseDate s with
        | none => rfl
        | some t =>
          have hle := hfut s t h hp
          show (if now < t then ["Data não pode ser futura"] else []) = []
          rw [if_neg (by omega)]

theorem tipoErrors_eq_nil_iff (a : Atendimento) :
    tipoErrors a = [] ↔ ∃ s, a.tipo = some s ∧ s ∈ tiposValidos := by
  cases h : a.tipo with
  | none => simp [tipoErrors, h]
  | some s =>
    simp only [tipoErrors, h]
    by_cases hm : tiposValidos.contains s
    · rw [if_pos hm]
      simpa using List.elem_iff.mp hm
    · rw [if_neg hm]
      simp
      intro hmem
      exact absurd (List.elem_iff.mpr hmem) hm

theorem validate_isValid_iff (parseDate : String → Option Int) (now : Int)
    (a : Atendimento) :
    (validateAtendimento parseDate now a).isValid = true ↔
      nomeErrors a = [] ∧ profErrors a = [] ∧
        dataErrors parseDate now a = [] ∧ tipoErrors a = [] := by
  simp [validateAtendimento, List.isEmpty_iff, List.append_eq_nil]

/-- Characterization of the service-layer acceptance (`sanitizeAtendimento`
then `validateAtendimento`) in terms of the spec-level field conditions. -/
theorem pooledAccepts_iff (parseDate : String → Option Int) (now : Int)
    (b : Atendimento) :
    pooledAccepts parseDate now b = true ↔
      NomeOk b ∧ ProfissionalOk b ∧ DataPresente b ∧
        DataNaoFutura parseDate now b ∧ TipoOkTrim b := by
  rw [pooledAccepts, validate_isValid_iff]
  have hnome : nomeErrors (sanitizeAtendimento b) = [] ↔ NomeOk b := by
    rw [nomeErrors_eq_nil_iff, NomeOk]
    cases h : b.nome with
    | none => simp [sanitizeAtendimento, h]
    | some s => simp [sanitizeAtendimento, h, jsTrim_idem]
  have hprof : profErrors (sanitizeAtendimento b) = [] ↔ ProfissionalOk b := by
    rw [profErrors_eq_nil_iff, ProfissionalOk]
    cases h : b.profissional with
    | none => simp [sanitizeAtendimento, h]
    | some s => simp [sanitizeAtendimento, h, jsTrim_idem]
  have hdata : dataErrors parseDate now (sanitizeAtendimento b) = [] ↔
      DataPresente b ∧ DataNaoFutura parseDate now b := by
    rw [dataErrors_eq_nil_iff]
    simp [sanitizeAtendimento, DataPresente, DataNaoFutura]
  have htipo : tipoErrors (sanitizeAtendimento b) = [] ↔ TipoOkTrim b := by
    rw [tipoErrors_eq_nil_iff, TipoOkTrim]
    cases h : b.tipo with
    | none => simp [sanitizeAtendimento, h]
    | some s => simp [sanitizeAtendimento, h]
  rw [hnome, hprof, hdata, htipo]
  tauto

/-- Characterization of the mock server's inline validation in terms of
the spec-level field conditions (no future-date check; raw tipo). -/
theorem mockAccepts_iff (b : Atendimento) :
    mockAccepts b = true ↔
      NomeOk b ∧ ProfissionalOk b ∧ DataPresente b ∧ TipoOkRaw b := by
  rw [mockAccepts, Option.isNone_iff_eq_none]
  rcases b with ⟨nome, prof, data, tipo, obs⟩
  constructor
  · intro h
    cases hn : nome with
    | none => simp [mockValidateBody, hn] at h
    | some sn =>
      simp only [mockValidateBody, hn] at h
      by_cases hln : (jsTrim sn).length < 2
      · simp [hln] at h
      · simp only [hln, if_false] at h
        cases hp : prof with
        | none => simp [hp] at h
        | some sp =>
          simp only [hp] at h
          by_cases hlp : (jsTrim sp).length < 2
          · simp [hlp] at h
          · simp only [hlp, if_false] at h
            by_cases hd : strFalsy data = true
            · simp [hd] at h
            · simp only [hd, Bool.false_eq_true, if_false] at h
              cases ht : tipo with
              | none => simp [ht] at h
              | some st =>
                simp only [ht] at h
                by_cases hmt : tiposValidos.contains st
                · refine ⟨⟨sn, rfl, by omega⟩, ⟨sp, rfl, by omega⟩, ?_, ?_⟩
                  · rcases data with - | sd
                    · simp [strFalsy] at hd
                    · exact ⟨sd, rfl, by simpa [strFalsy] using hd⟩
                  · exact ⟨st, rfl, List.elem_iff.mp hmt⟩
                · rw [if_neg hmt] at h
                  cases h
  · rintro ⟨⟨sn, hn, hln⟩, ⟨sp, hp, hlp⟩, ⟨sd, hd, hsd⟩, ⟨st, ht, hmt⟩⟩
    subst hn; subst hp; subst hd; subst ht
    have hln' : ¬ (jsTrim sn).length < 2 := by omega
    have hlp' : ¬ (jsTrim sp).length < 2 := by omega
    simp [mockValidateBody, hln', hlp', strFalsy, hsd, hmt]

/-! ## Helper lemmas: substring search -/

theorem leadMatch_append (pat r : List Char) : leadMatch pat (pat ++ r) = true := by
  induction pat with
  | nil => rfl
  | cons p ps ih => simp [leadMatch, ih]

theorem hasSubList_append_self (pat r : List Char) :
    hasSubList pat (pat ++ r) = true := by
  cases pat with
  | nil =>
    cases r with
    | nil => rfl
    | cons c t => simp [hasSubList, leadMatch]
  | cons p ps =>
    show (leadMatch (p :: ps) (p :: (ps ++ r)) || hasSubList (p :: ps) (ps ++ r)) = true
    have h : leadMatch (p :: ps) (p :: (ps ++ r)) = true := leadMatch_append (p :: ps) r
    simp [h]

theorem jsIncludes_append_left (p r : String) : jsIncludes (p ++ r) p = true := by
  unfold jsIncludes
  have h : (p ++ r).toList = p.toList ++ r.toList := String.data_append p r
  rw [h]
  exact hasSubList_append_self _ _

theorem jsIncludes_dados_invalidos (x : String) :
    jsIncludes ("Dados inválidos: " ++ x) "Dados inválidos" = true := by
  have hsplit : ("Dados inválidos: " : String) = "Dados inválidos" ++ ": " := by decide
  rw [hsplit, String.append_assoc]
  exact jsIncludes_append_left _ _

/-! ## Helper lemmas: `parseInt` -/

theorem digit_not_space (c : Char) (h : c.isDigit = true) : jsIsSpace c = false := by
  simp only [jsIsSpace, Bool.or_eq_false_iff]
  refine ⟨⟨⟨?_, ?_⟩, ?_⟩, ?_⟩ <;>
    (simp only [decide_eq_false_iff_not]; intro he; subst he; exact absurd h (by decide))

theorem digit_not_sign (c : Char) (h : c.isDigit = true) : ¬c = '-' ∧ ¬c = '+' := by
  constructor <;> (intro he; subst he; exact absurd h (by decide))

theorem takeWhile_all_append (p : α → Bool) :
    ∀ (ds rest : List α), (∀ c ∈ ds, p c = true) →
      (∀ c, rest.head? = some c → p c = false) →
      (ds ++ rest).takeWhile p = ds
  | [], rest, _, hrest => by
    cases rest with
    | nil => rfl
    | cons r t => simp [List.takeWhile_cons, hrest r rfl]
  | d :: ds', rest, hds, hrest => by
    have hd : p d = true := hds d (List.mem_cons_self d ds')
    simp only [List.cons_append, List.takeWhile_cons, hd, if_true]
    rw [takeWhile_all_append p ds' rest (fun c hc => hds c (List.mem_cons_of_mem d hc)) hrest]

theorem leadDigits_all_digits (ds rest : List Char) (hne : ds ≠ [])
    (hds : ∀ c ∈ ds, c.isDigit = true)
    (hrest : ∀ c, rest.head? = some c → c.isDigit = false) :
    leadDigits (ds ++ rest) = some (digitsToNat ds) := by
  unfold leadDigits
  rw [takeWhile_all_append Char.isDigit ds rest hds hrest]
  simp [List.isEmpty_iff, hne]

theorem parseIntJS_cons_digit (d : Char) (t : List Char) (hd : d.isDigit = true) :
    parseIntJS (String.mk (d :: t)) =
      (leadDigits (d :: t)).map (fun n => (n : Int)) := by
  unfold parseIntJS
  have h1 : (String.mk (d :: t)).toList.dropWhile jsIsSpace = d :: t := by
    show (d :: t).dropWhile jsIsSpace = d :: t
    rw [List.dropWhile_cons]
    simp [digit_not_space d hd]
  rw [h1]
  have hs := digit_not_sign d hd
  simp [hs.1, hs.2]

/-- Parsing of a run of digits: `parseInt` of a run of digits followed by a non-digit suffix equals
`parseInt` of the digit run alone: the suffix is ignored. -/
theorem parseIntJS_digits_append (ds rest : List Char) (hne : ds ≠ [])
    (hds : ∀ c ∈ ds, c.isDigit = true)
    (hrest : ∀ c, rest.head? = some c → c.isDigit = false) :
    parseIntJS (String.mk (ds ++ rest)) = some (Int.ofNat (digitsToNat ds)) ∧
      parseIntJS (String.mk ds) = some (Int.ofNat (digitsToNat ds)) := by
  cases ds with
  | nil => exact absurd rfl hne
  | cons d t =>
    have hd : d.isDigit = true := hds d (List.mem_cons_self d t)
    constructor
    · rw [List.cons_append, parseIntJS_cons_digit d (t ++ rest) hd,
        show d :: (t ++ rest) = (d :: t) ++ rest from rfl,
        leadDigits_all_digits (d :: t) rest hne hds hrest]
      simp
    · rw [parseIntJS_cons_digit d t hd,
        show d :: t = (d :: t) ++ [] from by simp,
        leadDigits_all_digits (d :: t) [] hne hds (fun c hc => by cases hc)]
      simp

/-! ## Helper lemmas: array index operations -/

theorem jsFindIndex_get? (p : α → Bool) :
    ∀ (l : List α) (n : Nat), jsFindIndex p l = some n →
      ∃ a, l.get? n = some a ∧ p a = true
  | [], n, h => by simp [jsFindIndex] at h
  | a :: t, n, h => by
    by_cases hp : p a
    · rw [show jsFindIndex p (a :: t) = some 0 from by simp [jsFindIndex, hp]] at h
      cases h
      exact ⟨a, rfl, hp⟩
    · have h' : (jsFindIndex p t).map (· + 1) = some n := by
        rw [← h]; simp [jsFindIndex, hp]
      rcases Option.map_eq_some'.mp h' with ⟨m, hm, hmn⟩
      obtain ⟨b, hb, hpb⟩ := jsFindIndex_get? p t m hm
      exact ⟨b, by rw [← hmn]; simpa using hb, hpb⟩

theorem mem_setAt : ∀ (l : List α) (n : Nat) (x b : α),
    b ∈ setAt l n x → b = x ∨ b ∈ l
  | [], _, _, _, h => by cases h
  | a :: t, 0, x, b, h => by
    rcases List.mem_cons.mp h with h | h
    · exact Or.inl h
    · exact Or.inr (List.mem_cons_of_mem a h)
  | a :: t, n + 1, x, b, h => by
    rcases List.mem_cons.mp h with h | h
    · exact Or.inr (h ▸ List.mem_cons_self a t)
    · rcases mem_setAt t n x b h with h | h
      · exact Or.inl h
      · exact Or.inr (List.mem_cons_of_mem a h)

theorem map_setAt (f : α → β) : ∀ (l : List α) (n : Nat) (x : α),
    (setAt l n x).map f = setAt (l.map f) n (f x)
  | [], _, _ => rfl
  | a :: t, 0, x => rfl
  | a :: t, n + 1, x => by simp [setAt, map_setAt f t n x]

theorem setAt_get?_self : ∀ (l : List α) (n : Nat) (x : α),
    l.get? n = some x → setAt l n x = l
  | [], n, x, h => by cases h
  | a :: t, 0, x, h => by
    simp only [List.get?] at h
    cases h
    rfl
  | a :: t, n + 1, x, h => by
    simp only [List.get?] at h
    simp [setAt, setAt_get?_self t n x h]

theorem removeAt_sublist : ∀ (l : List α) (n : Nat), (removeAt l n).Sublist l
  | [], _ => List.Sublist.refl []
  | _ :: t, 0 => List.sublist_cons_self _ t
  | a :: t, n + 1 => List.Sublist.cons₂ a (removeAt_sublist t n)

/-! ## Concrete inputs used by witnesses and counterexamples -/

/-- A concrete date parser for closed instances: every string parses to
time value 0. -/
def pdZero : String → Option Int := fun _ => some 0

/-- An empty database with the serial counter at 1. -/
def dbEmpty : DBState := { rows := [], serial := 1 }

/-- A fully valid request body. -/
def bGood : Atendimento :=
  { nome := some "Maria Silva", profissional := some "Ana Costa"
    data := some "2024-01-15", tipo := some "Psicológico"
    observacoes := some "Primeira consulta" }

/-- A request body whose `nome` has fewer than 2 characters (after trim). -/
def bShortNome : Atendimento :=
  { nome := some "X", profissional := some "Ana Costa"
    data := some "2024-01-15", tipo := some "Psicológico"
    observacoes := none }

/-- A 501-character `observacoes` value. -/
def obs501 : String := String.mk (List.replicate 501 'a')

/-- A request body that is valid except that `observacoes` has 501
characters. -/
def bObsLong : Atendimento :=
  { nome := some "Maria Silva", profissional := some "Ana Costa"
    data := some "2024-01-15", tipo := some "Psicológico"
    observacoes := some obs501 }

/-! ## C1: the backend record validation -/

set_option maxRecDepth 4000 in
/-- C1, counterexample: on a record whose `observacoes` has 501 characters
(every other field valid), `sanitizeAtendimento` followed by
`validateAtendimento` reports `isValid = true`, yet the specification's
record-validity predicate (which requires `observacoes` of at most 500
characters when present) does not hold.  The claimed biconditional is
therefore false: the backend validation never examines `observacoes`. -/
theorem c1_counterexample :
    (validateAtendimento pdZero 0 (sanitizeAtendimento bObsLong)).isValid = true ∧
      ¬ SpecValidRecord pdZero 0 bObsLong := by
  constructor
  · decide
  · intro hsv
    have hobs := hsv.2.2.2.2.2 obs501 rfl
    have hlen : obs501.length = 501 := by decide
    omega

/-- C1 (amended): for every record, the backend validation
(`sanitizeAtendimento` followed by `validateAtendimento`) reports
`isValid = true` if and only if the trimmed `nome` has at least 2
characters, the trimmed `profissional` has at least 2 characters, `data`
is present and not in the future, and the trimmed `tipo` is one of
"Psicológico", "Pedagógico", "Assistência Social".  The length of
`observacoes` is not checked by the backend (the 500-character limit
exists only in the frontend form validation). -/
theorem c1_backend_validation_iff (parseDate : String → Option Int)
    (now : Int) (a : Atendimento) :
    (validateAtendimento parseDate now (sanitizeAtendimento a)).isValid = true ↔
      NomeOk a ∧ ProfissionalOk a ∧ DataPresente a ∧
        DataNaoFutura parseDate now a ∧ TipoOkTrim a :=
  pooledAccepts_iff parseDate now a

/-! ## C2: the three create-validation variants -/

/-- C2, counterexample: on a body whose `nome` is the single character
"X", the raw-PostgreSQL server's POST handler answers 201 (it performs no
validation) while the mock server answers 400 and the pooled service
rejects the body; the three variants do not all accept or all reject. -/
theorem c2_counterexample :
    (rawServerPost dbEmpty bShortNome).fst.fst = 201 ∧
      (mockPost mockInitialState bShortNome).fst.fst = 400 ∧
      pooledAccepts pdZero 0 bShortNome = false := by
  refine ⟨rfl, ?_, ?_⟩ <;> decide

/-- C2 (amended): the pooled-PostgreSQL service and the in-memory mock
server validate `nome`, `profissional` and the presence of `data` in the
same way, but only the pooled service rejects future dates and matches
`tipo` after trimming (the mock tests the raw value); the raw-PostgreSQL
server's POST handler performs no field validation at all and answers 201
for every body (database constraint errors surface as 500, never as a
validation rejection). -/
theorem c2_create_validation_comparison (parseDate : String → Option Int)
    (now : Int) (b : Atendimento) (st : DBState) :
    (pooledAccepts parseDate now b = true ↔
      NomeOk b ∧ ProfissionalOk b ∧ DataPresente b ∧
        DataNaoFutura parseDate now b ∧ TipoOkTrim b) ∧
    (mockAccepts b = true ↔
      NomeOk b ∧ ProfissionalOk b ∧ DataPresente b ∧ TipoOkRaw b) ∧
    (rawServerPost st b).fst.fst = 201 :=
  ⟨pooledAccepts_iff parseDate now b, mockAccepts_iff b, rfl⟩

/-- C1, witness: the amended characterization applied at a concrete valid
record. -/
theorem c1_witness :
    NomeOk bGood ∧ ProfissionalOk bGood ∧ DataPresente bGood ∧
      DataNaoFutura pdZero 0 bGood ∧ TipoOkTrim bGood :=
  (c1_backend_validation_iff pdZero 0 bGood).mp (by decide)

/-- C2, witness: the amended comparison applied at a concrete valid body:
the mock server accepts it and the raw server answers 201. -/
theorem c2_witness :
    mockAccepts bGood = true ∧ (rawServerPost dbEmpty bGood).fst.fst = 201 :=
  ⟨(c2_create_validation_comparison pdZero 0 bGood dbEmpty).2.1.mpr
      ⟨⟨"Maria Silva", rfl, by decide⟩, ⟨"Ana Costa", rfl, by decide⟩,
        ⟨"2024-01-15", rfl, by decide⟩, ⟨"Psicológico", rfl, by decide⟩⟩,
    (c2_create_validation_comparison pdZero 0 bGood dbEmpty).2.2⟩

/-! ## C3: POST /api/atendimento statuses -/

/-- C3: for every request to POST /api/atendimento, in the layered
controller server and in the mock server alike: when the body passes that
server's field validation the status is 201 and the response carries the
record just appended to the store; when validation fails the status is
400. -/
theorem c3_post_statuses (parseDate : String → Option Int) (now : Int)
    (st : DBState) (stm : MockState) (b : Atendimento) :
    (pooledAccepts parseDate now b = true →
      (AtendimentoController.store parseDate now st b).fst.status = 201 ∧
      ∃ r, (AtendimentoController.store parseDate now st b).snd.rows = st.rows ++ [r] ∧
        (AtendimentoController.store parseDate now st b).fst.payload =
          some (mapAtendimentoToResponse r)) ∧
    (pooledAccepts parseDate now b = false →
      (AtendimentoController.store parseDate now st b).fst.status = 400 ∧
      (AtendimentoController.store parseDate now st b).snd = st) ∧
    (mockAccepts b = true →
      (mockPost stm b).fst.fst = 201 ∧
      ∃ a, (mockPost stm b).snd.atendimentos = stm.atendimentos ++ [a] ∧
        (mockPost stm b).fst.snd = some a) ∧
    (mockAccepts b = false → (mockPost stm b).fst.fst = 400) := by
  refine ⟨?_, ?_, ?_, ?_⟩
  · intro h
    have hv : (validateAtendimento parseDate now (sanitizeAtendimento b)).isValid = true := h
    refine ⟨?_,
      ⟨{ id := st.serial, nome := (sanitizeAtendimento b).nome.getD ""
         profissional := (sanitizeAtendimento b).profissional.getD ""
         data := (sanitizeAtendimento b).data.getD ""
         tipo := (sanitizeAtendimento b).tipo.getD ""
         observacoes := (sanitizeAtendimento b).observacoes.getD "" }, ?_, ?_⟩⟩ <;>
      simp [AtendimentoController.store, AtendimentoService.create, hv]
  · intro h
    have hv : (validateAtendimento parseDate now (sanitizeAtendimento b)).isValid = false := h
    refine ⟨?_, ?_⟩ <;>
      simp [AtendimentoController.store, AtendimentoService.create, hv,
        jsIncludes_dados_invalidos]
  · intro h
    cases hv : mockValidateBody b with
    | some m => rw [mockAccepts, hv] at h; cases h
    | none =>
      refine ⟨?_, ⟨mockBuildRecord stm.nextId b, ?_, ?_⟩⟩ <;> simp [mockPost, hv]
  · intro h
    cases hv : mockValidateBody b with
    | some m => simp [mockPost, hv]
    | none => rw [mockAccepts, hv] at h; cases h

/-- C3, witness: a concrete accepted body gets 201 from the controller
server, and a concrete rejected body gets 400 from the mock server. -/
theorem c3_witness :
    (AtendimentoController.store pdZero 0 dbEmpty bGood).fst.status = 201 ∧
      (mockPost mockInitialState bShortNome).fst.fst = 400 := by
  constructor
  · exact ((c3_post_statuses pdZero 0 dbEmpty mockInitialState bGood).1 (by decide)).1
  · exact (c3_post_statuses pdZero 0 dbEmpty mockInitialState bShortNome).2.2.2 (by decide)

/-! ## C8: no mutation when validation fails -/

/-- C8: when validation fails, the stored collection is untouched:
`AtendimentoService.create` and `AtendimentoService.update` return the
thrown error with the database state unchanged (the throw happens before
any SQL), and the mock server's POST handler answers 400 with its array
unchanged. -/
theorem c8_invalid_leaves_state_unchanged (parseDate : String → Option Int)
    (now : Int) (st : DBState) (i : Int) (stm : MockState) (b : Atendimento) :
    (pooledAccepts parseDate now b = false →
      (AtendimentoService.create parseDate now st b).snd = st ∧
      (∃ e, (AtendimentoService.create parseDate now st b).fst = .error e) ∧
      (AtendimentoService.update parseDate now st i b).snd = st ∧
      (∃ e, (AtendimentoService.update parseDate now st i b).fst = .error e)) ∧
    (mockAccepts b = false → (mockPost stm b).snd = stm) := by
  constructor
  · intro h
    have hv : (validateAtendimento parseDate now (sanitizeAtendimento b)).isValid = false := h
    refine ⟨?_,
      ⟨"Dados inválidos: " ++ String.intercalate ", "
        (validateAtendimento parseDate now (sanitizeAtendimento b)).errors, ?_⟩, ?_,
      ⟨"Dados inválidos: " ++ String.intercalate ", "
        (validateAtendimento parseDate now (sanitizeAtendimento b)).errors, ?_⟩⟩ <;>
      simp [AtendimentoService.create, AtendimentoService.update, hv]
  · intro h
    cases hv : mockValidateBody b with
    | some m => simp [mockPost, hv]
    | none => rw [mockAccepts, hv] at h; cases h

/-- C8, witness: the concrete invalid body leaves the concrete stores
unchanged. -/
theorem c8_witness :
    (AtendimentoService.create pdZero 0 dbEmpty bShortNome).snd = dbEmpty ∧
      (mockPost mockInitialState bShortNome).snd = mockInitialState := by
  constructor
  · exact ((c8_invalid_leaves_state_unchanged pdZero 0 dbEmpty 1 mockInitialState
      bShortNome).1 (by decide)).1
  · exact (c8_invalid_leaves_state_unchanged pdZero 0 dbEmpty 1 mockInitialState
      bShortNome).2 (by decide)

/-! ## C4 / C5 / C10: id handling on GET, DELETE, PUT -/

/-- The first seeded record of the mock server. -/
def mockRec1 : MockAtendimento :=
  { id := 1, nome := "Maria Silva", profissional := "Dr. João Santos"
    data := "2024-01-15", dataISO := "2024-01-15", tipo := "Psicológico"
    observacoes := "Primeira consulta - ansiedade" }

/-- A database with one row (id 1). -/
def dbOne : DBState :=
  { rows := [{ id := 1, nome := "Maria Silva", profissional := "Ana Costa"
               data := "2024-01-15", tipo := "Psicológico", observacoes := "" }]
    serial := 2 }

/-- C4 (amended): for `GET /api/atendimento/:id` the layered controller
answers 400 exactly on a non-numeric id, 404 when the parsed id matches no
record, and 200 with the record otherwise; the in-memory mock server
answers 200 with the record when the parsed id is found, but answers 404 —
not 400 — both when the record is missing and when the id is non-numeric
(the `NaN` id simply matches no record). -/
theorem c4_get_by_id (st : DBState) (stm : MockState) (idStr : String) :
    ((AtendimentoController.showById st idStr).status = 400 ↔ parseIntJS idStr = none) ∧
    (∀ i, parseIntJS idStr = some i →
      (∀ r, AtendimentoService.findById st i = some r →
        AtendimentoController.showById st idStr =
          { status := 200, success := true, payload := some (mapAtendimentoToResponse r)
            message := "Atendimento encontrado com sucesso" }) ∧
      (AtendimentoService.findById st i = none →
        (AtendimentoController.showById st idStr).status = 404)) ∧
    (parseIntJS idStr = none → mockGetById stm idStr = (404, none)) ∧
    (∀ i, parseIntJS idStr = some i →
      (∀ a, jsFind (fun x => x.id = i) stm.atendimentos = some a →
        mockGetById stm idStr = (200, some a)) ∧
      (jsFind (fun x => x.id = i) stm.atendimentos = none →
        mockGetById stm idStr = (404, none))) := by
  refine ⟨?_, ?_, ?_, ?_⟩
  · cases hp : parseIntJS idStr with
    | none => simp [AtendimentoController.showById, hp]
    | some i =>
      cases hf : AtendimentoService.findById st i with
      | none => simp [AtendimentoController.showById, hp, hf]
      | some r => simp [AtendimentoController.showById, hp, hf]
  · intro i hi
    constructor
    · intro r hr
      simp [AtendimentoController.showById, hi, hr]
    · intro hr
      simp [AtendimentoController.showById, hi, hr]
  · intro hp
    simp [mockGetById, hp]
  · intro i hi
    constructor
    · intro a ha
      simp [mockGetById, hi, ha]
    · intro ha
      simp [mockGetById, hi, ha]

/-- C4, counterexample: the claim demands a 400 for the non-numeric id
"abc", but the mock server's GET handler answers 404 for it. -/
theorem c4_counterexample :
    parseIntJS "abc" = none ∧
      (mockGetById mockInitialState "abc").fst = 404 ∧
      (mockGetById mockInitialState "abc").fst ≠ 400 := by
  refine ⟨?_, ?_, ?_⟩ <;> decide

/-- C4, witness: concrete instances of every case of `c4_get_by_id`. -/
theorem c4_witness :
    (AtendimentoController.showById dbEmpty "abc").status = 400 ∧
      mockGetById mockInitialState "1" = (200, some mockRec1) ∧
      (AtendimentoController.showById dbEmpty "7").status = 404 := by
  refine ⟨?_, ?_, ?_⟩
  · exact (c4_get_by_id dbEmpty mockInitialState "abc").1.mpr (by decide)
  · exact ((c4_get_by_id dbEmpty mockInitialState "1").2.2.2 1 (by decide)).1
      mockRec1 (by decide)
  · exact ((c4_get_by_id dbEmpty mockInitialState "7").2.1 7 (by decide)).2 (by decide)

/-- C5 (amended): for `DELETE /api/atendimento/:id` the layered controller
answers 400 exactly on a non-numeric id, removes the matching rows and
answers 200 when a row with the parsed id exists, and answers 404 leaving
the state unchanged otherwise; the mock server removes the first matching
entry and answers 200 when the parsed id is found, and answers 404 — not
400 — both when the id matches nothing and when it is non-numeric. -/
theorem c5_delete_by_id (st : DBState) (stm : MockState) (idStr : String) :
    (parseIntJS idStr = none →
      AtendimentoController.destroy st idStr =
        ({ status := 400, success := false, payload := none, message := "ID inválido" }, st)) ∧
    (∀ i, parseIntJS idStr = some i →
      ((∃ r ∈ st.rows, r.id = i) →
        (AtendimentoController.destroy st idStr).fst.status = 200 ∧
        (AtendimentoController.destroy st idStr).snd.rows =
          st.rows.filter (fun r => !(r.id = i : Bool))) ∧
      ((∀ r ∈ st.rows, r.id ≠ i) →
        (AtendimentoController.destroy st idStr).fst.status = 404 ∧
        (AtendimentoController.destroy st idStr).snd = st)) ∧
    (parseIntJS idStr = none → mockDelete stm idStr = (404, stm)) ∧
    (∀ i, parseIntJS idStr = some i →
      (∀ idx, jsFindIndex (fun a => a.id = i) stm.atendimentos = some idx →
        (mockDelete stm idStr).fst = 200 ∧
        (mockDelete stm idStr).snd.atendimentos = removeAt stm.atendimentos idx ∧
        ∃ a, stm.atendimentos.get? idx = some a ∧ a.id = i) ∧
      (jsFindIndex (fun a => a.id = i) stm.atendimentos = none →
        mockDelete stm idStr = (404, stm))) := by
  refine ⟨?_, ?_, ?_, ?_⟩
  · intro hp
    simp [AtendimentoController.destroy, hp]
  · intro i hi
    constructor
    · rintro ⟨r, hr, hri⟩
      have hany : st.rows.any (fun r => r.id = i) = true :=
        List.any_eq_true.mpr ⟨r, hr, by simp [hri]⟩
      constructor <;>
        simp [AtendimentoController.destroy, hi, AtendimentoService.delete, hany]
    · intro hall
      have hany : st.rows.any (fun r => r.id = i) = false := by
        rw [← Bool.not_eq_true, List.any_eq_true]
        rintro ⟨r, hr, hri⟩
        exact hall r hr (by simpa using hri)
      have hfil : st.rows.filter (fun r => !(r.id = i : Bool)) = st.rows :=
        List.filter_eq_self.mpr (fun r hr => by simp [hall r hr])
      constructor <;>
        simp [AtendimentoController.destroy, hi, AtendimentoService.delete, hany, hfil]
  · intro hp
    simp [mockDelete, hp]
  · intro i hi
    constructor
    · intro idx hidx
      obtain ⟨a, ha, hpa⟩ := jsFindIndex_get? _ stm.atendimentos idx hidx
      refine ⟨?_, ?_, a, ha, of_decide_eq_true hpa⟩ <;> simp [mockDelete, hi, hidx]
    · intro hidx
      simp [mockDelete, hi, hidx]

/-- C5, counterexample: the claim demands a 400 for the non-numeric id
"abc", but the mock server's DELETE handler answers 404 for it (and leaves
the array unchanged). -/
theorem c5_counterexample :
    parseIntJS "abc" = none ∧
      (mockDelete mockInitialState "abc").fst = 404 ∧
      (mockDelete mockInitialState "abc").fst ≠ 400 := by
  refine ⟨?_, ?_, ?_⟩ <;> decide

/-- C5, witness: concrete instances of every case of `c5_delete_by_id`. -/
theorem c5_witness :
    (AtendimentoController.destroy dbOne "1").fst.status = 200 ∧
      (AtendimentoController.destroy dbOne "7").fst.status = 404 ∧
      (mockDelete mockInitialState "2").fst = 200 := by
  refine ⟨?_, ?_, ?_⟩
  · exact (((c5_delete_by_id dbOne mockInitialState "1").2.1 1 (by decide)).1
      (by decide)).1
  · exact (((c5_delete_by_id dbOne mockInitialState "7").2.1 7 (by decide)).2
      (by decide)).1
  · exact (((c5_delete_by_id dbOne mockInitialState "2").2.2.2 2 (by decide)).1
      1 (by decide)).1

/-- Two distinct string literals used in controller messages differ; the
error message thrown for invalid data never collides with the bad-id
message. -/
theorem dados_ne_id_invalido (x : String) :
    ("Dados inválidos: " ++ x) ≠ "ID inválido" := by
  intro h
  have hlen := congrArg String.length h
  rw [String.length_append] at hlen
  have h1 : ("Dados inválidos: " : String).length = 17 := by decide
  have h2 : ("ID inválido" : String).length = 11 := by decide
  omega

/-- C10: in the show, update and destroy handlers the id is answered with
the 400 "ID inválido" rejection exactly when `parseInt` of it is `NaN`;
consequently an id string made of digits followed by non-digit characters
is not rejected but processed as the leading integer (`parseInt` ignores
the suffix), e.g. "12abc" is processed as 12. -/
theorem c10_bad_id_iff_parse_nan (parseDate : String → Option Int) (now : Int)
    (st : DBState) (idStr : String) (b : Atendimento) :
    ((AtendimentoController.showById st idStr).status = 400 ↔ parseIntJS idStr = none) ∧
    ((AtendimentoController.destroy st idStr).fst.status = 400 ↔ parseIntJS idStr = none) ∧
    ((AtendimentoController.update parseDate now st idStr b).fst.message = "ID inválido" ↔
      parseIntJS idStr = none) ∧
    (∀ ds rest, ds ≠ [] → (∀ c ∈ ds, c.isDigit = true) →
      (∀ c, rest.head? = some c → c.isDigit = false) →
      parseIntJS (String.mk (ds ++ rest)) = parseIntJS (String.mk ds)) ∧
    parseIntJS "12abc" = some 12 := by
  refine ⟨?_, ?_, ?_, ?_, by decide⟩
  · cases hp : parseIntJS idStr with
    | none => simp [AtendimentoController.showById, hp]
    | some i =>
      cases hf : AtendimentoService.findById st i with
      | none => simp [AtendimentoController.showById, hp, hf]
      | some r => simp [AtendimentoController.showById, hp, hf]
  · cases hp : parseIntJS idStr with
    | none => simp [AtendimentoController.destroy, hp]
    | some i =>
      cases hd : st.rows.any (fun r => r.id = i) with
      | true => simp [AtendimentoController.destroy, hp, AtendimentoService.delete, hd]
      | false => simp [AtendimentoController.destroy, hp, AtendimentoService.delete, hd]
  · cases hp : parseIntJS idStr with
    | none => simp [AtendimentoController.update, hp]
    | some i =>
      by_cases hv : (validateAtendimento parseDate now (sanitizeAtendimento b)).isValid = true
      · cases hf : jsFind (fun r => r.id = i) st.rows with
        | none => simp [AtendimentoController.update, hp, AtendimentoService.update, hv, hf]
        | some r => simp [AtendimentoController.update, hp, AtendimentoService.update, hv, hf]
      · rw [Bool.not_eq_true] at hv
        simp [AtendimentoController.update, hp, AtendimentoService.update, hv,
          dados_ne_id_invalido]
  · intro ds rest hne hds hrest
    obtain ⟨h1, h2⟩ := parseIntJS_digits_append ds rest hne hds hrest
    rw [h1, h2]

/-- C10, witness: the digit-run lemma applied at "12" ++ "abc", and the
400-iff applied at a non-numeric and a numeric id. -/
theorem c10_witness :
    parseIntJS (String.mk (['1', '2'] ++ ['a', 'b', 'c'])) =
        parseIntJS (String.mk ['1', '2']) ∧
      (AtendimentoController.showById dbEmpty "abc").status = 400 := by
  constructor
  · exact (c10_bad_id_iff_parse_nan pdZero 0 dbEmpty "abc" bGood).2.2.2.1
      ['1', '2'] ['a', 'b', 'c'] (by decide) (by decide) (by decide)
  · exact (c10_bad_id_iff_parse_nan pdZero 0 dbEmpty "abc" bGood).1.mpr (by decide)

/-! ## C9: the mock server id invariant -/

/-- The id invariant of the mock server: `nextId` is strictly greater than
every id in the array, and the ids in the array are pairwise distinct. -/
def MockInv (st : MockState) : Prop :=
  (∀ a ∈ st.atendimentos, a.id < st.nextId) ∧
    (st.atendimentos.map MockAtendimento.id).Nodup

instance (st : MockState) : Decidable (MockInv st) := by
  unfold MockInv
  infer_instance

/-- C9: the id invariant holds in the initial state of the mock server and
is preserved by its POST, PUT and DELETE handlers. -/
theorem c9_mock_id_invariant :
    MockInv mockInitialState ∧
    (∀ st b, MockInv st → MockInv (mockPost st b).snd) ∧
    (∀ st idStr b, MockInv st → MockInv (mockPut st idStr b).snd) ∧
    (∀ st idStr, MockInv st → MockInv (mockDelete st idStr).snd) := by
  refine ⟨by decide, ?_, ?_, ?_⟩
  · intro st b hinv
    cases hv : mockValidateBody b with
    | some m => simpa [mockPost, hv] using hinv
    | none =>
      have hred : (mockPost st b).snd =
          { atendimentos := st.atendimentos ++ [mockBuildRecord st.nextId b]
            nextId := st.nextId + 1 } := by
        simp [mockPost, hv]
      rw [hred]
      rcases hinv with ⟨hbound, hnodup⟩
      constructor
      · intro a ha
        show a.id < st.nextId + 1
        rcases List.mem_append.mp ha with h | h
        · have := hbound a h
          omega
        · have : a = mockBuildRecord st.nextId b := List.mem_singleton.mp h
          subst this
          show st.nextId < st.nextId + 1
          omega
      · show ((st.atendimentos ++ [mockBuildRecord st.nextId b]).map
          MockAtendimento.id).Nodup
        rw [List.map_append, List.nodup_append]
        refine ⟨hnodup, List.nodup_singleton _, ?_⟩
        intro x hx hx2
        rcases List.mem_map.mp hx with ⟨a, ha, rfl⟩
        have h1 := hbound a ha
        have h2 : a.id = st.nextId := by simpa [mockBuildRecord] using hx2
        omega
  · intro st idStr b hinv
    cases hp : parseIntJS idStr with
    | none => simpa [mockPut, hp] using hinv
    | some i =>
      cases hidx : jsFindIndex (fun a => a.id = i) st.atendimentos with
      | none => simpa [mockPut, hp, hidx] using hinv
      | some idx =>
        cases hv : mockValidateBody b with
        | some m => simpa [mockPut, hp, hidx, hv] using hinv
        | none =>
          have hred : (mockPut st idStr b).snd =
              { st with atendimentos := setAt st.atendimentos idx (mockBuildRecord i b) } := by
            simp [mockPut, hp, hidx, hv]
          rw [hred]
          obtain ⟨a0, ha0, hpa0⟩ := jsFindIndex_get? _ st.atendimentos idx hidx
          have ha0id : a0.id = i := of_decide_eq_true hpa0
          rcases hinv with ⟨hbound, hnodup⟩
          constructor
          · intro a ha
            rcases mem_setAt st.atendimentos idx (mockBuildRecord i b) a ha with h | h
            · subst h
              show i < st.nextId
              rw [← ha0id]
              exact hbound a0 (List.get?_mem ha0)
            · exact hbound a h
          · show ((setAt st.atendimentos idx (mockBuildRecord i b)).map
              MockAtendimento.id).Nodup
            have hids : (setAt st.atendimentos idx (mockBuildRecord i b)).map
                MockAtendimento.id = st.atendimentos.map MockAtendimento.id := by
              rw [map_setAt]
              have hget : (st.atendimentos.map MockAtendimento.id).get? idx = some i := by
                rw [List.get?_map, ha0]
                simp [ha0id]
              exact setAt_get?_self _ _ _ hget
            rw [hids]
            exact hnodup
  · intro st idStr hinv
    cases hp : parseIntJS idStr with
    | none => simpa [mockDelete, hp] using hinv
    | some i =>
      cases hidx : jsFindIndex (fun a => a.id = i) st.atendimentos with
      | none => simpa [mockDelete, hp, hidx] using hinv
      | some idx =>
        have hred : (mockDelete st idStr).snd =
            { st with atendimentos := removeAt st.atendimentos idx } := by
          simp [mockDelete, hp, hidx]
        rw [hred]
        rcases hinv with ⟨hbound, hnodup⟩
        constructor
        · intro a ha
          exact hbound a ((removeAt_sublist st.atendimentos idx).subset ha)
        · exact (((removeAt_sublist st.atendimentos idx).map
            MockAtendimento.id)).nodup hnodup

/-- C9, witness: the invariant holds after a concrete create and a
concrete delete on the initial state. -/
theorem c9_witness :
    MockInv (mockPost mockInitialState bGood).snd ∧
      MockInv (mockDelete mockInitialState "2").snd :=
  ⟨c9_mock_id_invariant.2.1 mockInitialState bGood (by decide),
   c9_mock_id_invariant.2.2.2 mockInitialState "2" (by decide)⟩

/-! ## C6: the frontend APICache -/

theorem lookup_mapSet_self : ∀ (m : CacheMap α) (k : String) (v : CacheItem α),
    APICache.lookup (APICache.mapSet m k v) k = some v
  | [], k, v => by simp [APICache.mapSet, APICache.lookup]
  | (k', v') :: t, k, v => by
    by_cases hk : k' = k
    · simp [APICache.mapSet, APICache.lookup, hk]
    · simp only [APICache.mapSet, hk, if_false, APICache.lookup]
      exact lookup_mapSet_self t k v

theorem lookup_filter_ne (k : String) : ∀ (m : CacheMap α),
    APICache.lookup (m.filter (fun e => !(e.fst = k : Bool))) k = none
  | [] => rfl
  | (k', v') :: t => by
    rw [List.filter_cons]
    by_cases hk : k' = k
    · rw [if_neg (by simp [hk])]
      exact lookup_filter_ne k t
    · rw [if_pos (by simp [hk])]
      show (if k' = k then some v'
        else APICache.lookup (List.filter (fun e => !(e.fst = k : Bool)) t) k) = none
      rw [if_neg hk]
      exact lookup_filter_ne k t

theorem lookup_eraseKey_self (m : CacheMap α) (k : String) :
    APICache.lookup (APICache.eraseKey m k) k = none :=
  lookup_filter_ne k m

theorem lookup_invalidate (p : String) :
    ∀ (m : CacheMap α) (k : String),
      APICache.lookup (APICache.invalidate m p) k =
        if jsIncludes k p then none else APICache.lookup m k
  | [], k => by
    show (none : Option (CacheItem α)) = if jsIncludes k p then none else none
    rw [ite_self]
  | (k', v') :: t, k => by
    show APICache.lookup
      (List.filter (fun e => !jsIncludes e.fst p) ((k', v') :: t)) k = _
    rw [List.filter_cons]
    by_cases hinc : jsIncludes k' p
    · rw [if_neg (by simp [hinc])]
      by_cases hk : k' = k
      · subst hk
        rw [show APICache.lookup (List.filter (fun e => !jsIncludes e.fst p) t) k' =
          APICache.lookup (APICache.invalidate t p) k' from rfl]
        rw [lookup_invalidate p t k', if_pos hinc, if_pos hinc]
      · rw [show APICache.lookup (List.filter (fun e => !jsIncludes e.fst p) t) k =
          APICache.lookup (APICache.invalidate t p) k from rfl]
        rw [lookup_invalidate p t k]
        have hrhs : APICache.lookup ((k', v') :: t) k = APICache.lookup t k := by
          show (if k' = k then some v' else APICache.lookup t k) = APICache.lookup t k
          rw [if_neg hk]
        rw [hrhs]
    · rw [if_pos (by simp [hinc])]
      show (if k' = k then some v'
        else APICache.lookup (List.filter (fun e => !jsIncludes e.fst p) t) k) = _
      by_cases hk : k' = k
      · subst hk
        rw [if_pos rfl, if_neg (by simp [hinc])]
        show some v' = (if k' = k' then some v' else APICache.lookup t k')
        rw [if_pos rfl]
      · rw [if_neg hk]
        rw [show APICache.lookup (List.filter (fun e => !jsIncludes e.fst p) t) k =
          APICache.lookup (APICache.invalidate t p) k from rfl]
        rw [lookup_invalidate p t k]
        have hrhs : APICache.lookup ((k', v') :: t) k = APICache.lookup t k := by
          show (if k' = k then some v' else APICache.lookup t k) = APICache.lookup t k
          rw [if_neg hk]
        rw [hrhs]

/-- C6: the APICache behaves as an expiring key-value map: a `get` within
the TTL of the last `set` of that key returns the stored data; a `get` of
a key with no entry returns `null` leaving the map unchanged; a `get` of
an expired entry returns `null` and removes the entry; `invalidate p`
deletes exactly the entries whose key contains `p` as a substring, leaving
every other entry's lookup unchanged. -/
theorem c6_apicache {α : Type} (m : CacheMap α) (k p : String) (d : α)
    (t now : Int) (it : CacheItem α) :
    (now ≤ t + APICache.ttl →
      (APICache.get (APICache.set m k d t) k now).fst = some d) ∧
    (APICache.lookup m k = none → APICache.get m k now = (none, m)) ∧
    (APICache.lookup m k = some it → it.expiry < now →
      (APICache.get m k now).fst = none ∧
      APICache.lookup (APICache.get m k now).snd k = none) ∧
    (APICache.lookup (APICache.invalidate m p) k =
      if jsIncludes k p then none else APICache.lookup m k) := by
  refine ⟨?_, ?_, ?_, lookup_invalidate p m k⟩
  · intro h
    simp only [APICache.get, APICache.set, lookup_mapSet_self]
    have h' : now ≤ t + (5 * 60 * 1000 : Int) := h
    have hc : ¬ ({ data := d, expiry := t + APICache.ttl } : CacheItem α).expiry < now := by
      show ¬ t + (5 * 60 * 1000 : Int) < now
      omega
    rw [if_neg hc]
  · intro h
    simp [APICache.get, h]
  · intro h hexp
    have hred : APICache.get m k now = (none, APICache.eraseKey m k) := by
      simp only [APICache.get, h]
      rw [if_pos hexp]
    rw [hred]
    exact ⟨rfl, lookup_eraseKey_self m k⟩

/-- C6, witness: concrete cache interactions exercising every clause of
`c6_apicache`. -/
theorem c6_witness :
    (APICache.get (APICache.set ([] : CacheMap Nat) "get_atendimentos" 7 0)
        "get_atendimentos" 1000).fst = some 7 ∧
      APICache.get ([] : CacheMap Nat) "get_atendimentos" 0 = (none, []) ∧
      (APICache.get [("get_atendimentos", ({ data := 5, expiry := 3 } : CacheItem Nat))]
          "get_atendimentos" 10).fst = none := by
  refine ⟨?_, ?_, ?_⟩
  · exact (c6_apicache [] "get_atendimentos" "x" 7 0 1000
      { data := 7, expiry := 0 }).1 (by decide)
  · exact (c6_apicache [] "get_atendimentos" "x" 7 0 0
      { data := 7, expiry := 0 }).2.1 (by decide)
  · exact ((c6_apicache [("get_atendimentos", { data := 5, expiry := 3 })]
      "get_atendimentos" "x" 7 0 10 { data := 5, expiry := 3 }).2.2.1
      (by decide) (by decide)).1

/-! ## C7: the frontend list filters -/

/-- The claim's search comparison: case-insensitive and accent-insensitive
substring containment, with no trimming. -/
def specContainsCI (text term : String) : Bool :=
  jsIncludes (removeAccents (jsToLower text)) (removeAccents (jsToLower term))

/-- The filter predicate exactly as the claim states it: when the search
term is non-empty, some of `nome`, `profissional`, `observacoes` contains
it (case- and accent-insensitively); when the tipo filter is non-empty,
the record's tipo equals it. -/
def specMatchClaim (a : FrontAtendimento) (f : Filters) : Bool :=
  ((f.search = "" : Bool) ||
    (specContainsCI a.nome f.search || specContainsCI a.profissional f.search ||
      specContainsCI (a.observacoes.getD "") f.search)) &&
  ((f.tipo = "" : Bool) || (a.tipo = f.tipo : Bool))

/-- The amended search comparison: both the field text and the term are
lowercased, trimmed of surrounding whitespace and stripped of accents
before the substring test, and the field must be non-empty. -/
def matchesSearchAmended (a : FrontAtendimento) (term : String) : Bool :=
  (!(a.nome = "" : Bool) &&
    jsIncludes (sanitizeForSearch a.nome) (sanitizeForSearch term)) ||
  (!(a.profissional = "" : Bool) &&
    jsIncludes (sanitizeForSearch a.profissional) (sanitizeForSearch term)) ||
  (!((a.observacoes.getD "") = "" : Bool) &&
    jsIncludes (sanitizeForSearch (a.observacoes.getD "")) (sanitizeForSearch term))

/-- The amended filter predicate. -/
def specMatchTrimmed (a : FrontAtendimento) (f : Filters) : Bool :=
  ((f.search = "" : Bool) || matchesSearchAmended a f.search) &&
  ((f.tipo = "" : Bool) || (a.tipo = f.tipo : Bool))

/-- A record used in the C7 counterexample. -/
def frontRec1 : FrontAtendimento :=
  { nome := "ba", profissional := "xx", tipo := "Psicológico", observacoes := none }

/-- C7, counterexample: with the search term `"a "` (trailing space), the
code keeps the record with `nome = "ba"` (both sides are trimmed before
the comparison, so the term becomes `"a"`), while the claim's predicate —
substring containment of the term itself, case- and accent-insensitive but
untrimmed — matches no field; the claimed characterization of
`applyFilters` is therefore false. -/
theorem c7_counterexample :
    AtendimentoFilters.applyFilters [frontRec1] { search := "a ", tipo := "" } =
        [frontRec1] ∧
      List.filter (fun r => specMatchClaim r { search := "a ", tipo := "" })
        [frontRec1] = [] := by
  refine ⟨?_, ?_⟩ <;> decide

theorem containsSearchTerm_eq (text term : String) (hterm : ¬term = "") :
    containsSearchTerm text term =
      (!(text = "" : Bool) &&
        jsIncludes (sanitizeForSearch text) (sanitizeForSearch term)) := by
  by_cases ht : text = "" <;> simp [containsSearchTerm, ht, hterm]

/-- C7 (amended): `applyFilters` returns exactly the records of the input
list, in their original order, that satisfy both active filters, where the
search comparison lowercases, trims and accent-strips both the field and
the term before the substring test (and an absent or empty field never
matches); with both filters empty the list is returned unchanged. -/
theorem c7_apply_filters (l : List FrontAtendimento) (f : Filters) :
    AtendimentoFilters.applyFilters l f =
        l.filter (fun r => specMatchTrimmed r f) ∧
      AtendimentoFilters.applyFilters l { search := "", tipo := "" } = l := by
  constructor
  · by_cases hs : f.search = ""
    · by_cases ht : f.tipo = ""
      · simp [AtendimentoFilters.applyFilters, hs, ht, specMatchTrimmed]
      · simp only [AtendimentoFilters.applyFilters, hs, if_true,
          AtendimentoFilters.filterByTipo, if_neg ht]
        apply List.filter_congr
        intro a _
        simp [specMatchTrimmed, hs, ht]
    · by_cases ht : f.tipo = ""
      · simp only [AtendimentoFilters.applyFilters, if_neg hs, ht, if_true,
          AtendimentoFilters.filterBySearch, if_neg hs]
        apply List.filter_congr
        intro a _
        simp [specMatchTrimmed, matchesSearchAmended, hs, ht,
          containsSearchTerm_eq _ _ hs]
      · simp only [AtendimentoFilters.applyFilters, if_neg hs, if_neg ht,
          AtendimentoFilters.filterByTipo, AtendimentoFilters.filterBySearch,
          List.filter_filter]
        apply List.filter_congr
        intro a _
        simp only [specMatchTrimmed, matchesSearchAmended, hs, ht,
          containsSearchTerm_eq _ _ hs, decide_eq_true_eq]
        cases hn : jsIncludes (sanitizeForSearch a.nome) (sanitizeForSearch f.search) <;>
          cases hp : jsIncludes (sanitizeForSearch a.profissional)
            (sanitizeForSearch f.search) <;>
          cases ho : jsIncludes (sanitizeForSearch (a.observacoes.getD ""))
            (sanitizeForSearch f.search) <;>
          cases htq : (decide (a.tipo = f.tipo)) <;>
          simp [hs, ht]
  · simp [AtendimentoFilters.applyFilters]

/-- C7, witness: the amended characterization applied at a concrete list
and filter pair. -/
theorem c7_witness :
    AtendimentoFilters.applyFilters [frontRec1] { search := "b", tipo := "" } =
      List.filter (fun r => specMatchTrimmed r { search := "b", tipo := "" })
        [frontRec1] :=
  (c7_apply_filters [frontRec1] { search := "b", tipo := "" }).1

end Projeto
